import Mathlib

/-!
Verification of the `BlockingRecordIterator` (src/blocking/blocking.py):
a MinHash/LSH blocking iterator over a streamed record source.

The embedding models Python scalar values, records as ordered key/value
lists (Python dict keys are unique, so looking a remaining key up in the
dict is the same as reading the pair's own value), the shingle-extraction
strategies, the MinHash signing pipeline, the LSH index configuration, the
bounded build phase (`_create_hashes`) and the query phase (`__next__`).
External collaborators (the `datasketch` library's hash and permutation
internals, the SQL streaming cursor) are modelled from the specification,
as noted on the individual definitions; streams are passed in as lists.
-/

namespace Blocking

/-- Equality of `Except` results is decidable when both components are. -/
instance instDecEqExcept {ε α : Type} [DecidableEq ε] [DecidableEq α] :
    DecidableEq (Except ε α)
  | .error e, .error f =>
    match decEq e f with
    | isTrue h => isTrue (h ▸ rfl)
    | isFalse h => isFalse (fun c => h (Except.error.inj c))
  | .error _, .ok _ => isFalse (fun c => Except.noConfusion c)
  | .ok _, .error _ => isFalse (fun c => Except.noConfusion c)
  | .ok x, .ok y =>
    match decEq x y with
    | isTrue h => isTrue (h ▸ rfl)
    | isFalse h => isFalse (fun c => h (Except.ok.inj c))

/-- Python errors that the modelled code can raise.  `valueError` stands for
the `ValueError` used as the configuration error, `attributeError` for
attribute lookups on objects that lack them (e.g. `str.trim`). -/
inductive PyErr where
  | valueError
  | attributeError
deriving DecidableEq, Repr

/-- A Python scalar value as stored in a record field. -/
inductive Value where
  | none
  | str (s : String)
  | int (z : Int)
  | bool (b : Bool)
deriving DecidableEq, Repr

/-- Python `str(v)`. -/
def pyStr : Value → String
  | .none => "None"
  | .str s => s
  | .int z => toString z
  | .bool b => if b then "True" else "False"

/-- Python truthiness of a scalar value. -/
def truthy : Value → Bool
  | .none => false
  | .str s => !(s == "")
  | .int z => !(z == 0)
  | .bool b => b

/-- A record: an ordered mapping from field name to scalar value. -/
abbrev Record := List (String × Value)

/-- Python truthiness of a record (`if nrow:`): a dict is truthy iff nonempty. -/
def truthyRec (r : Record) : Bool := !(List.isEmpty r)

/-- Membership test `self.__id_name in r.keys()`. -/
def hasId (idName : String) (r : Record) : Bool :=
  r.any (fun p => p.1 == idName)

/-- Lookup `r[self.__id_name]` (first matching key; `Value.none` if absent, though the
code only reads it after checking presence). -/
def idVal (idName : String) (r : Record) : Value :=
  match r.find? (fun p => p.1 == idName) with
  | some p => p.2
  | Option.none => Value.none

/-- The record with the identifier field removed: `_record_to_string` pops the
id name from the key list, `_get_record_text` pops it from the dict copy. -/
def nonIdPairs (idName : String) (r : Record) : Record :=
  r.eraseP (fun p => p.1 == idName)

/-- A whitespace character as matched by the regex class used in
`re.sub("\s+", "", rstr)`. -/
def isPyWs (c : Char) : Bool :=
  c == ' ' || c == '\t' || c == '\n' || c == '\r' ||
  c == Char.ofNat 11 || c == Char.ofNat 12

/-- Substitution `re.sub("\s+", "", s)`: delete every whitespace character. -/
def removeWs (s : String) : String :=
  String.mk (s.toList.filter (fun c => !isPyWs c))

/-- Method `_record_to_string(r, delimiter)`: collect the truthy non-identifier
values, cast each to string, and join with the delimiter. -/
def recordToString (idName delim : String) (r : Record) : String :=
  String.intercalate delim
    (((nonIdPairs idName r).filterMap
        (fun p => if truthy p.2 then some p.2 else Option.none)).map pyStr)

/-- Method `_split_str_to_chars(val)`: the characters of a truthy string, as
one-character strings; the empty list for a falsy one. -/
def splitStrToChars (s : String) : List String :=
  if s == "" then [] else s.toList.map Char.toString

/-- The letter-shingle path of `_get_shingle`: record to string with no
delimiter, whitespace removed, split into characters. -/
def letterShingles (idName : String) (r : Record) : List String :=
  splitStrToChars (removeWs (recordToString idName "" r))

/-- Python `str.split(" ")` over the character list: split at every space,
keeping empty fragments, with `[[]]` for the empty input. -/
def splitOnSpaceChars : List Char → List (List Char)
  | [] => [[]]
  | c :: rest =>
    if c == ' ' then [] :: splitOnSpaceChars rest
    else
      match splitOnSpaceChars rest with
      | [] => [[c]]
      | g :: gs => (c :: g) :: gs

/-- Python `str.split(" ")` on a string. -/
def pySplitSpace (s : String) : List String :=
  (splitOnSpaceChars s.toList).map String.mk

/-- Method `_split_record_words(val)`: record to string with a single-space
delimiter, then `str.split(" ")` (which keeps empty fragments and returns
`[""]` on the empty string). -/
def wordShingles (idName : String) (r : Record) : List String :=
  pySplitSpace (recordToString idName " " r)

/-- The accumulation loop of `_get_record_text`: starting from `txt = None`,
for each remaining value `v`, if `txt is not None` then `txt = v` (the raw
value, overwriting what was there), else `txt = "{} {}".format(txt, v)`
(which renders the `None`). -/
def recordTextLoop : Value → List (String × Value) → Value
  | txt, [] => txt
  | txt, (_, v) :: rest =>
    if txt == Value.none then recordTextLoop (Value.str ("None " ++ pyStr v)) rest
    else recordTextLoop v rest

/-- Method `_get_record_text(r)`: pop the identifier field, then run the
accumulation loop.  The result is a Python value, not necessarily a string. -/
def getRecordText (idName : String) (r : Record) : Value :=
  recordTextLoop Value.none (nonIdPairs idName r)

/-- Call `txt.split(" ")` on a Python value: only strings have `split`. -/
def pySplitVal : Value → Except PyErr (List String)
  | .str s => .ok (pySplitSpace s)
  | _ => .error .attributeError

/-- The filtering comprehension
`[x for x in toks if x is not None and len(x.trim()) > 0]`: every element is
a string (never `None`), so the first element reaches `x.trim()` and raises
`AttributeError` — Python strings have no `trim` method. -/
def trimFilter : List String → Except PyErr (List String)
  | [] => .ok []
  | _ :: _ => .error .attributeError

/-- The text path of `_get_shingle`: `_get_record_text` then split on spaces
and filter through the (crashing) `trim` comprehension. -/
def textShingles (idName : String) (r : Record) : Except PyErr (List String) :=
  match pySplitVal (getRecordText idName r) with
  | .error e => .error e
  | .ok toks => trimFilter toks

/-- The configuration surface of `BlockingRecordIterator.__init__` that the
modelled behaviour depends on (connection, query and cursor name belong to
the external source collaborator and appear as explicit stream arguments). -/
structure BlockingConfig where
  idName : String
  threshold : ℚ
  isLetter : Bool
  isText : Bool
  sessionSize : Nat
  numPerm : Nat
deriving DecidableEq

/-- Method `_get_shingle(r)`: letter shingles if `is_letter`, else the text path if
`is_text`, else word shingles. -/
def getShingle (cfg : BlockingConfig) (r : Record) : Except PyErr (List String) :=
  if cfg.isLetter then .ok (letterShingles cfg.idName r)
  else if cfg.isText then textShingles cfg.idName r
  else .ok (wordShingles cfg.idName r)

/-- The three extraction strategies of the specification. -/
inductive ShingleStrategy where
  | letter
  | text
  | word
deriving DecidableEq

/-- The strategy a flag configuration selects, mirroring the guard order of
`_get_shingle`. -/
def strategyOf (cfg : BlockingConfig) : ShingleStrategy :=
  if cfg.isLetter then .letter else if cfg.isText then .text else .word

/-- The behaviour of each individual strategy. -/
def applyStrategy : ShingleStrategy → BlockingConfig → Record → Except PyErr (List String)
  | .letter, cfg, r => .ok (letterShingles cfg.idName r)
  | .text, cfg, r => textShingles cfg.idName r
  | .word, cfg, r => .ok (wordShingles cfg.idName r)

/-- All three strategies, for counting selections. -/
def allStrategies : List ShingleStrategy := [.letter, .text, .word]

/-! ## MinHash signing

The signature engine lives in the external `datasketch` library; the
definitions below are modelled from the specification (§4.2): `num_perm`
independent hash permutations with seeds fixed per signer construction,
slot-wise minimum over the UTF-8 encoded shingles, maximum-value sentinel
for the empty set. -/

/-- The Mersenne prime modulus of the permutation arithmetic. -/
def mersennePrime : Nat := 2 ^ 61 - 1

/-- Size of the 32-bit hash range. -/
def hashRange : Nat := 2 ^ 32

/-- The maximum-value sentinel initialising every signature slot. -/
def maxHash : Nat := 2 ^ 32 - 1

/-- UTF-8 encoding of one character (`c.encode('utf-8')` acts per character
of the shingle string). -/
def utf8ByteList (c : Char) : List Nat :=
  let n := c.toNat
  if n < 128 then [n]
  else if n < 2048 then [192 ||| (n >>> 6), 128 ||| (n &&& 63)]
  else if n < 65536 then
    [224 ||| (n >>> 12), 128 ||| ((n >>> 6) &&& 63), 128 ||| (n &&& 63)]
  else
    [240 ||| (n >>> 18), 128 ||| ((n >>> 12) &&& 63),
     128 ||| ((n >>> 6) &&& 63), 128 ||| (n &&& 63)]

/-- The UTF-8 bytes of a shingle string. -/
def strBytes (s : String) : List Nat :=
  (s.toList.map utf8ByteList).flatten

/-- Modelled from the spec: deterministic stand-in for the external
32-bit digest over the UTF-8 bytes of a shingle (`datasketch` uses a
SHA-1 truncation; only determinism and range matter here). -/
def hashStr (s : String) : Nat :=
  (strBytes s).foldl (fun h b => (h * 1000003 + b) % hashRange) 5381

/-- Modelled from the spec: the `a` coefficient of permutation slot `j`,
drawn deterministically from the seed (fixed per signer construction),
in `[1, mersennePrime)`. -/
def permA (seed j : Nat) : Nat :=
  (6364136223846793005 * (seed * hashRange + 2 * j) + 1442695040888963407)
      % (mersennePrime - 1) + 1

/-- Modelled from the spec: the `b` coefficient of permutation slot `j`,
in `[0, mersennePrime)`. -/
def permB (seed j : Nat) : Nat :=
  (6364136223846793005 * (seed * hashRange + 2 * j + 1) + 1442695040888963407)
      % mersennePrime

/-- The hash of one shingle under one permutation, folded into the 32-bit
range. -/
def slotHash (a b : Nat) (s : String) : Nat :=
  (a * hashStr s + b) % mersennePrime % hashRange

/-- One signature slot: the minimum permuted hash over the shingles,
starting from the maximum-value sentinel (so the empty shingle set keeps
the sentinel). -/
def minhashSlot (a b : Nat) (shingles : List String) : Nat :=
  shingles.foldl (fun acc s => min acc (slotHash a b s)) maxHash

/-- The full MinHash signature: one slot per permutation. -/
def minhashSig (seed numPerm : Nat) (shingles : List String) : List Nat :=
  (List.range numPerm).map (fun j => minhashSlot (permA seed j) (permB seed j) shingles)

/-- The fixed default seed of the signer (`MinHash(num_perm)` is constructed
with the library default seed on every call). -/
def minhashSeed : Nat := 1

/-- The pure shingle list produced by the two non-crashing strategy paths. -/
def pureShingles (cfg : BlockingConfig) (r : Record) : List String :=
  if cfg.isLetter then letterShingles cfg.idName r else wordShingles cfg.idName r

/-- The signature `_get_min_hash` computes for a record on the non-crashing
strategy paths. -/
def recordSig (cfg : BlockingConfig) (r : Record) : List Nat :=
  minhashSig minhashSeed cfg.numPerm (pureShingles cfg r)

/-- Method `_get_min_hash(r)`: shingle the record, then fold every shingle into a
freshly constructed `MinHash(num_perm)` (fixed default seed). -/
def getMinHash (cfg : BlockingConfig) (r : Record) : Except PyErr (List Nat) :=
  match getShingle cfg r with
  | .error e => .error e
  | .ok cs => .ok (minhashSig minhashSeed cfg.numPerm cs)

/-! ## LSH index -/

/-- The `storage_config` argument: either `None` or a dict-like
configuration object. -/
inductive StorageConfig where
  | null
  | dict (entries : List (String × String))
deriving DecidableEq

/-- Python truthiness of the storage configuration
(`if self.__storage_config:`): `None` and the empty dict are falsy. -/
def StorageConfig.isTruthy : StorageConfig → Bool
  | .null => false
  | .dict es => !(List.isEmpty es)

/-- Modelled from the spec: the `(b, r)` band tuning of the external
`MinHashLSH` — among the factorisations `b * r = num_perm`, the pair whose
band collision point best matches the threshold (compared after raising to
the `r`-th power, which keeps the deviation rational). -/
def bandCandidates (n : Nat) : List (Nat × Nat) :=
  ((List.range n).map (fun k => k + 1)).filterMap
    (fun b => if n % b == 0 then some (b, n / b) else Option.none)

/-- Deviation measure for one `(b, r)` candidate. -/
def bandDeviation (t : ℚ) (p : Nat × Nat) : ℚ :=
  |t ^ p.2 - 1 / (p.1 : ℚ)|

/-- Modelled from the spec: choose the best `(b, r)` pair. -/
def bandParams (t : ℚ) (n : Nat) : Nat × Nat :=
  (bandCandidates n).foldl
    (fun best p => if bandDeviation t p < bandDeviation t best then p else best)
    (1, n)

/-- The LSH index state: the configured threshold, permutation count and
storage backend, the derived banding, and the inserted
(identifier, signature) pairs from which the band buckets derive. -/
structure LSHIndex where
  threshold : ℚ
  numPerm : Nat
  storage : StorageConfig
  bands : Nat
  rows : Nat
  entries : List (Value × List Nat)
deriving DecidableEq

/-- The freshly constructed index
`MinHashLSH(threshold=…, num_perm=…, storage_config=…)`. -/
def mkLsh (t : ℚ) (n : Nat) (sc : StorageConfig) : LSHIndex :=
  ⟨t, n, sc, (bandParams t n).1, (bandParams t n).2, []⟩

/-- Method `setup_lsh()`: construct the index when the storage configuration is
truthy, otherwise raise
`ValueError("Storage Backend Required Due to Use of Session")`. -/
def setupLsh (t : ℚ) (n : Nat) (sc : StorageConfig) : Except PyErr LSHIndex :=
  if sc.isTruthy then .ok (mkLsh t n sc) else .error .valueError

/-- Band number `i` of a signature: rows `i*r … i*r + (r-1)`. -/
def bandSlice (r i : Nat) (sig : List Nat) : List Nat :=
  (sig.drop (i * r)).take r

/-- Two signatures collide when some band agrees in full. -/
def sharesBand (b r : Nat) (s1 s2 : List Nat) : Bool :=
  (List.range b).any (fun i => bandSlice r i s1 == bandSlice r i s2)

/-- Query `lsh.query(m)`: the identifiers of all inserted signatures that share at
least one band with the queried signature. -/
def lshQuery (idx : LSHIndex) (m : List Nat) : List Value :=
  (idx.entries.filter (fun e => sharesBand idx.bands idx.rows e.2 m)).map
    (fun e => e.1)

/-! ## Build phase and query phase -/

/-- The loop body of `_create_hashes(it)`, recursing on the remaining
session budget `session_size - i`.  Per pulled record: if the identifier
field is present, read it, sign the record and insert the pair into the
session; the counter advances for every pulled record.  On `StopIteration`
the loop stops with `run = False`.  Returns the pairs inserted into the
session, the unconsumed remainder of the stream, and `run`. -/
def createHashesLoop (cfg : BlockingConfig) :
    Nat → List Record → Except PyErr (List (Value × List Nat) × List Record × Bool)
  | 0, stream => .ok ([], stream, true)
  | _ + 1, [] => .ok ([], [], false)
  | n + 1, r :: rest =>
    if hasId cfg.idName r then
      match getMinHash cfg r with
      | .error e => .error e
      | .ok m =>
        match createHashesLoop cfg n rest with
        | .error e => .error e
        | .ok (ins, rem, run) => .ok ((idVal cfg.idName r, m) :: ins, rem, run)
    else createHashesLoop cfg n rest

/-- Method `_create_hashes(it)`: run the session loop with the configured
`session_size` budget. -/
def createHashes (cfg : BlockingConfig) (stream : List Record) :
    Except PyErr (List (Value × List Nat) × List Record × Bool) :=
  createHashesLoop cfg cfg.sessionSize stream

/-- The closed form the build phase is proved equal to: the records with an
identifier among the first `session_size` pulled are signed and inserted in
order; the rest of the stream is left unconsumed; the returned flag is
`False` exactly when the source ran out before the budget. -/
def buildResult (cfg : BlockingConfig) (stream : List Record) :
    List (Value × List Nat) × List Record × Bool :=
  (((stream.take cfg.sessionSize).filter (fun r => hasId cfg.idName r)).map
      (fun r => (idVal cfg.idName r, recordSig cfg r)),
   stream.drop cfg.sessionSize,
   decide (cfg.sessionSize ≤ stream.length))

/-- Method `__next__`: pull with a `None` default (`next(self.__curr_it, None)`);
a truthy row is signed and queried, yielding `(row, candidates)` and the
rest of the stream; a falsy row (absent — the stream ran out — or an empty
record) raises `StopIteration`, modelled as `Except.ok Option.none`. -/
def nextPull (cfg : BlockingConfig) (idx : LSHIndex) (stream : List Record) :
    Except PyErr (Option ((Record × List Value) × List Record)) :=
  match stream with
  | [] => .ok Option.none
  | r :: rest =>
    if truthyRec r then
      match getMinHash cfg r with
      | .error e => .error e
      | .ok m => .ok (some ((r, lshQuery idx m), rest))
    else .ok Option.none

/-- Method `__iter__` on first use: set up the LSH index, run the build phase over
the build-cursor stream, close and rename the cursor, and hold the
re-opened query stream.  The pairs inserted in the session become visible
index entries when the session scope closes. -/
def blockingIter (cfg : BlockingConfig) (sc : StorageConfig)
    (buildStream queryStream : List Record) :
    Except PyErr (LSHIndex × List Record) :=
  match setupLsh cfg.threshold cfg.numPerm sc with
  | .error e => .error e
  | .ok idx =>
    match createHashes cfg buildStream with
    | .error e => .error e
    | .ok (ins, _, _) => .ok ({ idx with entries := ins }, queryStream)

/-! ## Spec-side definitions for refinement comparison -/

/-- The character-shingle strategy as the specification words it
(claim C5): "concatenating all non-identifier field values (each cast to
string) with no delimiter, removing all whitespace, and taking the
individual characters of the result" — note: all values, not only the
truthy ones. -/
def specCharShingles (idName : String) (r : Record) : List String :=
  (removeWs (String.intercalate ""
    ((nonIdPairs idName r).map (fun p => pyStr p.2)))).toList.map Char.toString

/-! ## Concrete configurations and records used by witnesses and
counterexamples -/

/-- A letter-shingle configuration with a session budget of one record. -/
def cfgLetter : BlockingConfig := ⟨"id", 1/2, true, false, 1, 4⟩

/-- A configuration with both strategy flags off (word-shingle fallback). -/
def cfgWordFlags : BlockingConfig := ⟨"id", 1/2, false, false, 1, 4⟩

/-- A tokenized-text configuration. -/
def cfgText : BlockingConfig := ⟨"id", 1/2, false, true, 1, 4⟩

/-- A demonstration index over a truthy storage configuration. -/
def idxDemo : LSHIndex := mkLsh (1/2) 4 (StorageConfig.dict [("type", "redis")])

/-- A well-formed record with an identifier and a name. -/
def rAlice : Record := [("id", Value.int 1), ("name", Value.str "alice smith")]

/-- A record lacking the identifier field. -/
def rNoId : Record := [("name", Value.str "bob")]

/-- A record whose only non-identifier field holds the integer `0`
(falsy but not `None` and not blank). -/
def rZero : Record := [("id", Value.int 1), ("qty", Value.int 0)]

/-- A record whose non-identifier fields are all falsy. -/
def rAllFalsy : Record :=
  [("id", Value.int 7), ("a", Value.none), ("b", Value.str ""), ("c", Value.int 0)]

/-- The empty record (a falsy dict). -/
def rEmpty : Record := []

/-- A second identified record, following the empty one in a stream. -/
def rId2 : Record := [("id", Value.int 2)]

/-! ## Helper lemmas -/

/-- On the letter and word paths the shingle extraction cannot raise. -/
lemma getShingle_ok (cfg : BlockingConfig) (r : Record)
    (h : cfg.isLetter = true ∨ cfg.isText = false) :
    getShingle cfg r = .ok (pureShingles cfg r) := by
  by_cases hl : cfg.isLetter = true
  · simp [getShingle, pureShingles, hl]
  · have hl' : cfg.isLetter = false := by revert hl; cases cfg.isLetter <;> simp
    have ht : cfg.isText = false := by
      rcases h with h | h
      · exact absurd h hl
      · exact h
    simp [getShingle, pureShingles, hl', ht]

/-- On the letter and word paths the signing step cannot raise. -/
lemma getMinHash_ok (cfg : BlockingConfig) (r : Record)
    (h : cfg.isLetter = true ∨ cfg.isText = false) :
    getMinHash cfg r = .ok (recordSig cfg r) := by
  simp [getMinHash, getShingle_ok cfg r h, recordSig]

/-- Closed form of the build-phase loop. -/
lemma createHashesLoop_eq (cfg : BlockingConfig)
    (h : cfg.isLetter = true ∨ cfg.isText = false) :
    ∀ (n : Nat) (stream : List Record),
    createHashesLoop cfg n stream =
      .ok (((stream.take n).filter (fun r => hasId cfg.idName r)).map
            (fun r => (idVal cfg.idName r, recordSig cfg r)),
          stream.drop n, decide (n ≤ stream.length)) := by
  intro n
  induction n with
  | zero => intro stream; simp [createHashesLoop]
  | succ n ih =>
    intro stream
    cases stream with
    | nil => simp [createHashesLoop]
    | cons r rest =>
      by_cases hid : hasId cfg.idName r
      · simp [createHashesLoop, hid, getMinHash_ok cfg r h, ih rest,
              decide_eq_decide]
      · simp [createHashesLoop, hid, ih rest, decide_eq_decide]

/-- A pull on a truthy head record signs it, queries the index and yields
the pair. -/
lemma nextPull_cons_truthy (cfg : BlockingConfig) (idx : LSHIndex)
    (r : Record) (rest : List Record)
    (h : cfg.isLetter = true ∨ cfg.isText = false)
    (ht : truthyRec r = true) :
    nextPull cfg idx (r :: rest) =
      .ok (some ((r, lshQuery idx (recordSig cfg r)), rest)) := by
  simp [nextPull, ht, getMinHash_ok cfg r h]

/-- The trim comprehension never raises the configuration error. -/
lemma trimFilter_no_valueError (l : List String) :
    trimFilter l ≠ .error PyErr.valueError := by
  cases l <;> simp [trimFilter]

/-- The text path never raises the configuration error (it raises
`AttributeError` or, vacuously, succeeds). -/
lemma textShingles_no_valueError (idName : String) (r : Record) :
    textShingles idName r ≠ .error PyErr.valueError := by
  unfold textShingles
  cases hv : pySplitVal (getRecordText idName r) with
  | error e =>
    cases hg : getRecordText idName r <;> simp [hg, pySplitVal] at hv ⊢ <;>
      simp [← hv]
  | ok toks => simp [trimFilter_no_valueError]

/-- The function `splitStrToChars` is plain character splitting (the falsy branch only
short-circuits the empty string, whose character list is empty anyway). -/
lemma splitStrToChars_eq (s : String) :
    splitStrToChars s = s.toList.map Char.toString := by
  unfold splitStrToChars
  by_cases hs : s == ""
  · have : s = "" := by exact eq_of_beq hs
    simp [this]
  · simp [hs]

/-- Folding a minimum: the initial value commutes out. -/
lemma foldlMin_init_min (f : String → Nat) :
    ∀ (l : List String) (init x : Nat),
    l.foldl (fun acc s => min acc (f s)) (min init x) =
      min x (l.foldl (fun acc s => min acc (f s)) init) := by
  intro l
  induction l with
  | nil => intro init x; exact Nat.min_comm init x
  | cons a l ih =>
    intro init x
    show l.foldl _ (min (min init x) (f a)) = min x (l.foldl _ (min init (f a)))
    rw [min_right_comm init x (f a), ih (min init (f a)) x]

/-- Folding a minimum never exceeds the initial value. -/
lemma foldlMin_le_init (f : String → Nat) :
    ∀ (l : List String) (init : Nat),
    l.foldl (fun acc s => min acc (f s)) init ≤ init := by
  intro l
  induction l with
  | nil => intro init; exact Nat.le_refl init
  | cons a l ih =>
    intro init
    exact Nat.le_trans (ih (min init (f a))) (Nat.min_le_left init (f a))

/-- Folding a minimum never exceeds the image of a member. -/
lemma foldlMin_le_mem (f : String → Nat) :
    ∀ (l : List String) (init : Nat) (a : String), a ∈ l →
    l.foldl (fun acc s => min acc (f s)) init ≤ f a := by
  intro l
  induction l with
  | nil => intro init a ha; cases ha
  | cons b l ih =>
    intro init a ha
    rcases List.mem_cons.mp ha with hab | hal
    · subst hab
      exact Nat.le_trans (foldlMin_le_init f l (min init (f a)))
        (Nat.min_le_right init (f a))
    · exact ih (min init (f b)) a hal

/-- A list whose members all occur in another list folds to a minimum at
least as small under the latter. -/
lemma foldlMin_subset_le (f : String → Nat) :
    ∀ (l₂ l₁ : List String) (init : Nat), (∀ x ∈ l₂, x ∈ l₁) →
    l₁.foldl (fun acc s => min acc (f s)) init ≤
      l₂.foldl (fun acc s => min acc (f s)) init := by
  intro l₂
  induction l₂ with
  | nil => intro l₁ init _; exact foldlMin_le_init f l₁ init
  | cons a l₂ ih =>
    intro l₁ init hsub
    show _ ≤ l₂.foldl _ (min init (f a))
    rw [foldlMin_init_min f l₂ init (f a)]
    exact Nat.le_min.mpr
      ⟨foldlMin_le_mem f l₁ init a (hsub a (List.mem_cons_self a l₂)),
       ih l₁ init (fun x hx => hsub x (List.mem_cons_of_mem a hx))⟩

/-- A signature slot depends only on the set of shingles. -/
lemma minhashSlot_toFinset (a b : Nat) (s₁ s₂ : List String)
    (h : s₁.toFinset = s₂.toFinset) :
    minhashSlot a b s₁ = minhashSlot a b s₂ := by
  have h₁ : ∀ x ∈ s₁, x ∈ s₂ := by
    intro x hx
    exact List.mem_toFinset.mp (h ▸ List.mem_toFinset.mpr hx)
  have h₂ : ∀ x ∈ s₂, x ∈ s₁ := by
    intro x hx
    exact List.mem_toFinset.mp (h ▸ List.mem_toFinset.mpr hx)
  exact Nat.le_antisymm
    (foldlMin_subset_le (slotHash a b) s₂ s₁ maxHash h₂)
    (foldlMin_subset_le (slotHash a b) s₁ s₂ maxHash h₁)

/-! ## Claim theorems -/

/-- Claim C1, counterexample: the claim as stated is false — with a falsy
(empty) record at the head of a non-exhausted query stream, the pull does
not yield a `(record, candidateIdSet)` pair for it; `next(it, None)`
followed by the `if nrow:` truthiness test raises `StopIteration`
(modelled as `Option.none`) even though the source still holds a record. -/
theorem c1_counterexample :
    nextPull cfgLetter idxDemo [rEmpty, rId2] = .ok Option.none ∧
    [rEmpty, rId2] ≠ ([] : List Record) :=
  ⟨rfl, by decide⟩

/-- Claim C1, amended: each query-phase pull on a truthy (nonempty) record
yields the pair of that record and the LSH index's query result for its
signature, and an exhausted source signals `StopIteration`
(`Option.none` inside `Except.ok`), not an error; a falsy record also
terminates the iteration early (see the counterexample).  The flag
hypothesis keeps the shingling off the crashing tokenized path. -/
theorem c1_amended (cfg : BlockingConfig) (idx : LSHIndex) (r : Record)
    (rest : List Record) (h : cfg.isLetter = true ∨ cfg.isText = false) :
    (truthyRec r = true →
      nextPull cfg idx (r :: rest) =
        .ok (some ((r, lshQuery idx (recordSig cfg r)), rest))) ∧
    nextPull cfg idx [] = .ok Option.none :=
  ⟨fun ht => nextPull_cons_truthy cfg idx r rest h ht, rfl⟩

/-- Witness for the amended claim C1, at a concrete record and index. -/
theorem c1_amended_witness :
    (cfgLetter.isLetter = true ∨ cfgLetter.isText = false) ∧
    truthyRec rAlice = true ∧
    nextPull cfgLetter idxDemo [rAlice] =
      .ok (some ((rAlice, lshQuery idxDemo (recordSig cfgLetter rAlice)), [])) :=
  ⟨Or.inl rfl, rfl, (c1_amended cfgLetter idxDemo rAlice [] (Or.inl rfl)).1 rfl⟩

/-- Claim C2: the build phase consumes at most `session_size` records
(`take`/`drop` of the stream at the budget), inserts exactly the consumed
records that have the identifier field (in order, keyed by the identifier
value and carrying the record's signature), and returns `run = False` —
reporting the source exhausted — precisely when the stream ran out before
the budget did.  The flag hypothesis keeps the signing off the crashing
tokenized path. -/
theorem c2_build_phase (cfg : BlockingConfig) (stream : List Record)
    (h : cfg.isLetter = true ∨ cfg.isText = false) :
    createHashes cfg stream = .ok (buildResult cfg stream) :=
  createHashesLoop_eq cfg h cfg.sessionSize stream

/-- Witness for claim C2, at a concrete two-record stream and budget one. -/
theorem c2_build_phase_witness :
    (cfgLetter.isLetter = true ∨ cfgLetter.isText = false) ∧
    createHashes cfgLetter [rAlice, rNoId] =
      .ok (buildResult cfgLetter [rAlice, rNoId]) :=
  ⟨Or.inl rfl, c2_build_phase cfgLetter [rAlice, rNoId] (Or.inl rfl)⟩

/-- Claim C3, counterexample: the claim's "if and only if no storage
backend configuration is supplied" is false — a supplied but empty
configuration dict (clearly distinct from `None`) is falsy, so
`setup_lsh` still raises the configuration error. -/
theorem c3_counterexample :
    setupLsh (1/2) 128 (StorageConfig.dict []) = .error PyErr.valueError ∧
    StorageConfig.dict [] ≠ StorageConfig.null :=
  ⟨rfl, by decide⟩

/-- Claim C3, amended: `setup_lsh` raises the configuration error iff the
storage configuration is falsy (`None` or an empty configuration); a
truthy configuration constructs the index with the configured threshold
and `num_perm`, and no error is raised. -/
theorem c3_amended (t : ℚ) (n : Nat) (sc : StorageConfig) :
    (setupLsh t n sc = .error PyErr.valueError ↔ sc.isTruthy = false) ∧
    (sc.isTruthy = true → setupLsh t n sc = .ok (mkLsh t n sc)) := by
  cases hsc : sc.isTruthy <;> simp [setupLsh, hsc]

/-- Witness for the amended claim C3, at a concrete truthy configuration. -/
theorem c3_amended_witness :
    (StorageConfig.dict [("type", "redis")]).isTruthy = true ∧
    setupLsh (1/2) 128 (StorageConfig.dict [("type", "redis")]) =
      .ok (mkLsh (1/2) 128 (StorageConfig.dict [("type", "redis")])) :=
  ⟨rfl, (c3_amended (1/2) 128 (StorageConfig.dict [("type", "redis")])).2 rfl⟩

/-- Claim C4: a record missing the identifier field is silently skipped by
the build loop — nothing is inserted for it — yet the session counter
still advances: processing it with budget `n + 1` is exactly processing
the remaining stream with budget `n`. -/
theorem c4_missing_id_counted (cfg : BlockingConfig) (n : Nat) (r : Record)
    (rest : List Record) (hid : hasId cfg.idName r = false) :
    createHashesLoop cfg (n + 1) (r :: rest) = createHashesLoop cfg n rest := by
  simp [createHashesLoop, hid]

/-- Witness for claim C4, at a concrete identifier-less record. -/
theorem c4_missing_id_counted_witness :
    hasId cfgLetter.idName rNoId = false ∧
    createHashesLoop cfgLetter 1 [rNoId] = createHashesLoop cfgLetter 0 [] :=
  ⟨rfl, c4_missing_id_counted cfgLetter 0 rNoId [] rfl⟩

/-- Claim C5, counterexample: the claim's "concatenating all non-identifier
field values (each cast to string)" is false — `_record_to_string` keeps
only truthy values, so a field holding the integer `0` (neither blank nor
`None`) contributes nothing, while the spec-worded computation keeps its
character. -/
theorem c5_counterexample :
    specCharShingles "id" rZero ≠ letterShingles "id" rZero := by decide

/-- Claim C5, amended: the character-shingle set concatenates the *truthy*
non-identifier field values (each cast to string) with no delimiter,
removes all whitespace and takes the individual characters; a record whose
non-identifier fields are all falsy (blank, `None`, zero, `False`)
produces an empty shingle set. -/
theorem c5_amended (idName : String) (r : Record) :
    letterShingles idName r =
      (removeWs (String.intercalate ""
        ((nonIdPairs idName r).filterMap
          (fun p => if truthy p.2 then some (pyStr p.2) else Option.none)))).toList.map
        Char.toString ∧
    ((∀ p ∈ nonIdPairs idName r, truthy p.2 = false) →
      letterShingles idName r = []) := by
  constructor
  · have hfuse : ((nonIdPairs idName r).filterMap
        (fun p => if truthy p.2 then some p.2 else Option.none)).map pyStr =
        (nonIdPairs idName r).filterMap
          (fun p => if truthy p.2 then some (pyStr p.2) else Option.none) := by
      rw [List.map_filterMap]
      congr 1
      funext p
      by_cases hp : truthy p.2 <;> simp [hp]
    unfold letterShingles recordToString
    rw [splitStrToChars_eq, hfuse]
  · intro hall
    have hnil : (nonIdPairs idName r).filterMap
        (fun p => if truthy p.2 then some p.2 else Option.none) = [] := by
      rw [List.filterMap_eq_nil_iff]
      intro p hp
      simp [hall p hp]
    unfold letterShingles recordToString
    rw [hnil]
    rfl

/-- Witness for the amended claim C5, at a record whose non-identifier
fields are `None`, the blank string and zero. -/
theorem c5_amended_witness :
    (∀ p ∈ nonIdPairs "id" rAllFalsy, truthy p.2 = false) ∧
    letterShingles "id" rAllFalsy = [] :=
  ⟨by decide, (c5_amended "id" rAllFalsy).2 (by decide)⟩

/-- Claim C6, code-bug evidence: under the tokenized strategy the code
never reaches the language tokenizer — on the failing input the
comprehension in `_get_shingle` evaluates `x.trim()` and Python strings
have no `trim` method, so the pull raises `AttributeError` (and the
tokenizer wrapper `_create_word_shingles` is dead code); additionally
`_get_record_text` builds `"None alice smith"` instead of the joined
field text. -/
theorem c6_text_strategy_crashes :
    getShingle cfgText rAlice = .error PyErr.attributeError ∧
    getRecordText cfgText.idName rAlice = Value.str "None alice smith" :=
  ⟨by decide, by decide⟩

/-- Claim C7, counterexample: the claim's "there exists no configuration of
the strategy flags under which extraction proceeds without an explicit
strategy having been selected" is false — with both flags off, extraction
proceeds through the silent word-shingle fallback and raises nothing. -/
theorem c7_counterexample :
    cfgWordFlags.isLetter = false ∧ cfgWordFlags.isText = false ∧
    getShingle cfgWordFlags rAlice = .ok ["alice", "smith"] :=
  ⟨rfl, rfl, by decide⟩

/-- Claim C7, amended: shingle extraction never raises the configuration
error — some strategy is always resolvable, because with neither flag set
it silently falls back to word shingles. -/
theorem c7_amended (cfg : BlockingConfig) (r : Record) :
    getShingle cfg r ≠ .error PyErr.valueError ∧
    (cfg.isLetter = false → cfg.isText = false →
      getShingle cfg r = .ok (wordShingles cfg.idName r)) := by
  constructor
  · by_cases hl : cfg.isLetter = true
    · simp [getShingle, hl]
    · have hl' : cfg.isLetter = false := by revert hl; cases cfg.isLetter <;> simp
      by_cases ht : cfg.isText = true
      · simp [getShingle, hl', ht, textShingles_no_valueError]
      · have ht' : cfg.isText = false := by revert ht; cases cfg.isText <;> simp
        simp [getShingle, hl', ht']
  · intro hl ht
    simp [getShingle, hl, ht]

/-- Witness for the amended claim C7, at the both-flags-off
configuration. -/
theorem c7_amended_witness :
    cfgWordFlags.isLetter = false ∧ cfgWordFlags.isText = false ∧
    getShingle cfgWordFlags rNoId ≠ .error PyErr.valueError ∧
    getShingle cfgWordFlags rNoId = .ok (wordShingles cfgWordFlags.idName rNoId) :=
  ⟨rfl, rfl, (c7_amended cfgWordFlags rNoId).1,
   (c7_amended cfgWordFlags rNoId).2 rfl rfl⟩

/-- Claim C8: the strategy flags form a mutually exclusive selection —
`_get_shingle` behaves as the application of the single strategy the flag
configuration selects (letter wins over text, word is the fallback), and
exactly one of the three strategies is selected by any configuration. -/
theorem c8_exclusive_strategy (cfg : BlockingConfig) (r : Record) :
    getShingle cfg r = applyStrategy (strategyOf cfg) cfg r ∧
    (allStrategies.filter (fun s => s == strategyOf cfg)).length = 1 := by
  rcases cfg with ⟨idN, th, il, it, ss, np⟩
  cases il <;> cases it <;> exact ⟨rfl, rfl⟩

/-- Claim C9: signing is deterministic — for a fixed seed and fixed
`num_perm`, the MinHash signature is a function of the shingle set alone,
so two separate computations over the same shingle set (in particular over
the same record) yield identical signatures. -/
theorem c9_sign_deterministic (seed n : Nat) (s₁ s₂ : List String)
    (h : s₁.toFinset = s₂.toFinset) :
    minhashSig seed n s₁ = minhashSig seed n s₂ := by
  unfold minhashSig
  have hfun : (fun j => minhashSlot (permA seed j) (permB seed j) s₁) =
      (fun j => minhashSlot (permA seed j) (permB seed j) s₂) :=
    funext fun j => minhashSlot_toFinset (permA seed j) (permB seed j) s₁ s₂ h
  rw [hfun]

/-- Witness for claim C9, at two concrete presentations of one shingle
set. -/
theorem c9_sign_deterministic_witness :
    (["ab", "cd", "ab"] : List String).toFinset =
      (["cd", "ab"] : List String).toFinset ∧
    minhashSig 1 2 ["ab", "cd", "ab"] = minhashSig 1 2 ["cd", "ab"] :=
  ⟨by decide, c9_sign_deterministic 1 2 ["ab", "cd", "ab"] ["cd", "ab"] (by decide)⟩

/-- Claim C10: the query phase performs no identifier check — a truthy
record lacking the identifier field is still shingled, signed, queried and
yielded exactly like any other record. -/
theorem c10_query_no_id_skip (cfg : BlockingConfig) (idx : LSHIndex)
    (r : Record) (rest : List Record)
    (h : cfg.isLetter = true ∨ cfg.isText = false)
    (ht : truthyRec r = true) (_hid : hasId cfg.idName r = false) :
    nextPull cfg idx (r :: rest) =
      .ok (some ((r, lshQuery idx (recordSig cfg r)), rest)) :=
  nextPull_cons_truthy cfg idx r rest h ht

/-- Witness for claim C10, at a concrete identifier-less record. -/
theorem c10_query_no_id_skip_witness :
    (cfgLetter.isLetter = true ∨ cfgLetter.isText = false) ∧
    truthyRec rNoId = true ∧ hasId cfgLetter.idName rNoId = false ∧
    nextPull cfgLetter idxDemo [rNoId] =
      .ok (some ((rNoId, lshQuery idxDemo (recordSig cfgLetter rNoId)), [])) :=
  ⟨Or.inl rfl, rfl, rfl,
   c10_query_no_id_skip cfgLetter idxDemo rNoId [] (Or.inl rfl) rfl rfl⟩

end Blocking
